import Mathlib

/-!
# Verification model of `react-track-player-web` (src/src/TrackPlayer.ts)

A shallow embedding of the playback engine's queue/transport core.  Each
definition mirrors a function of `TrackPlayer.ts` (line references in the
doc comments).  Time quantities (`currentTime`, `duration`, seek offsets)
are modelled as rationals; queue indices are modelled as `Int`, exactly as
JavaScript numbers behave on the integer values the code manipulates
(including the value `-1` used as the "nothing active" sentinel).

Parts of the class that no claim touches are abstracted away: the
media-session integration, the `metadataLoadedMap` cache, the progress
polling timer, and the Web Audio node objects (only the filter gain values
are kept, since the equalizer claims are about those).  The media element
is modelled by its observable fields (`src`, `currentTime`, `duration`,
`buffered`, `paused`); its synchronous `play()`/`pause()` calls run the
`play`/`pause` event listeners that `init` installs (TrackPlayer.ts lines
223-233), which fire exactly when the paused flag actually flips.
-/

namespace RTP

/-- `Capability` enum, constants.ts lines 7-57. -/
inductive Capability
  | play
  | pause
  | stop
  | skip
  | skipToNext
  | skipToPrevious
  | seekTo
  | seekBy
  | setVolume
  | setRate
deriving DecidableEq, Repr

/-- `Event` enum, constants.ts lines 65-85. -/
inductive Event
  | playbackState
  | playbackError
  | playbackTrackChanged
  | playbackProgressUpdated
deriving DecidableEq, Repr

/-- `State` enum, constants.ts lines 93-128. -/
inductive State
  | none
  | ready
  | playing
  | paused
  | stopped
  | buffering
  | error
deriving DecidableEq, Repr

/-- `RepeatMode` enum, constants.ts lines 136-151. -/
inductive RepeatMode
  | off
  | track
  | queue
deriving DecidableEq, Repr

/-- `Track` record, types.ts: the fields the core reads (`url`,
`isLiveStream`); the purely decorative metadata fields (title, artist,
album, artwork) are irrelevant to every claim and folded into `url` as the
track's identity. -/
structure Track where
  url : String
  isLiveStream : Bool := false
deriving DecidableEq, Repr

/-- One equalizer band, types.ts `EqualizerBand` (`frequency`, `gain`, `Q`). -/
structure EqBand where
  frequency : ℚ
  gain : ℚ
  q : ℚ
deriving DecidableEq, Repr

/-- The payloads of the `EventData` union in types.ts, tagged by the
`Event` kind.  `playbackTrackChanged` carries `prevTrack : number | null`
and `nextTrack`. -/
inductive EventData
  | playbackState (state : State)
  | playbackTrackChanged (prevTrack : Option Int) (nextTrack : Int)
  | playbackProgressUpdated (position duration buffered : ℚ)
  | playbackError
deriving DecidableEq, Repr

/-- Observable fields of the `HTMLAudioElement` the player owns. -/
structure AudioElem where
  src : String
  currentTime : ℚ
  duration : ℚ
  buffered : ℚ
  paused : Bool
deriving DecidableEq, Repr

/-- The instance fields of the `TrackPlayer` class (TrackPlayer.ts lines
59-82) that the claims are about.  `filterGains` is `some gs` when
`equalizerFilters` is non-empty (one gain value per `BiquadFilterNode`)
and `none` when the filter nodes have not been created. -/
structure Player where
  queue : List Track
  currentTrackIndex : Int
  state : State
  playWhenReady : Bool
  repeatMode : RepeatMode
  isChangingTrack : Bool
  capabilities : List Capability
  elem : AudioElem
  eqEnabled : Bool
  bands : List EqBand
  filterGains : Option (List ℚ)
  events : List EventData
deriving DecidableEq, Repr

/-- Read `queue[i]` at a JavaScript number index: `undefined` (here
`none`) outside `[0, length)`. -/
def getIdx (q : List Track) (i : Int) : Option Track :=
  if 0 ≤ i then q[i.toNat]? else none

/-- `Array.prototype.splice(i, 0, ...ts)` for an in-bounds `0 ≤ i ≤ len`. -/
def spliceIn (q : List Track) (i : Int) (ts : List Track) : List Track :=
  q.take i.toNat ++ ts ++ q.drop i.toNat

/-- `Array.prototype.splice(i, 1)` for an in-bounds `0 ≤ i < len`. -/
def spliceOut (q : List Track) (i : Int) : List Track :=
  q.take i.toNat ++ q.drop (i.toNat + 1)

/-- Insert into a descending-sorted list, keeping equal elements in their
original relative order (stability of `Array.prototype.sort`). -/
def insertDesc (a : Int) : List Int → List Int
  | [] => [a]
  | b :: l => if b < a then a :: b :: l else b :: insertDesc a l

/-- `[...indices].sort((a, b) => b - a)`: stable descending sort
(TrackPlayer.ts line 903). -/
def sortDesc (l : List Int) : List Int :=
  l.foldr insertDesc []

namespace TrackPlayer

/-- `emitEvent` (TrackPlayer.ts lines 591-600): the model records every
emission in the `events` log (delivery to the listener registry is
modelled separately, see `addEventListener` below). -/
def emitEvent (p : Player) (d : EventData) : Player :=
  { p with events := p.events ++ [d] }

/-- `updateState` (TrackPlayer.ts lines 517-525): assigns the state and
emits a `PlaybackState` event, but only when the value actually changes. -/
def updateState (p : Player) (s : State) : Player :=
  if p.state ≠ s then
    emitEvent { p with state := s } (EventData.playbackState s)
  else p

/-- The `"play"` listener installed by `init` (lines 223-227). -/
def onPlayEvent (p : Player) : Player :=
  if p.isChangingTrack then p else updateState p State.playing

/-- The `"pause"` listener installed by `init` (lines 229-233). -/
def onPauseEvent (p : Player) : Player :=
  if p.isChangingTrack then p else updateState p State.paused

/-- `audioElement.play()`: flips `paused` and fires the `"play"` listener
when the element was actually paused. -/
def elemPlay (p : Player) : Player :=
  if p.elem.paused then
    onPlayEvent { p with elem := { p.elem with paused := false } }
  else p

/-- `audioElement.pause()`: flips `paused` and fires the `"pause"`
listener when the element was actually playing. -/
def elemPause (p : Player) : Player :=
  if p.elem.paused then p
  else onPauseEvent { p with elem := { p.elem with paused := true } }

/-- `getCurrentTrackObject` (TrackPlayer.ts lines 606-611). -/
def getCurrentTrackObject (p : Player) : Option Track :=
  if 0 ≤ p.currentTrackIndex ∧ p.currentTrackIndex < (p.queue.length : Int) then
    getIdx p.queue p.currentTrackIndex
  else none

/-- The `duration` value reported by `emitProgress` (TrackPlayer.ts
lines 567-572): `-1` for live streams, the element's duration
otherwise. -/
def reportedDuration (p : Player) : ℚ :=
  match getCurrentTrackObject p with
  | some t => if t.isLiveStream then -1 else p.elem.duration
  | Option.none => p.elem.duration

/-- `emitProgress` (TrackPlayer.ts lines 562-585). -/
def emitProgress (p : Player) : Player :=
  emitEvent p
    (EventData.playbackProgressUpdated p.elem.currentTime (reportedDuration p) p.elem.buffered)

/-- `loadTrack` (TrackPlayer.ts lines 618-668): raises the
changing-track guard, pauses, rewinds, assigns the new source, keeps the
`playWhenReady` intent when `preservePlayState` is set, and transitions
to `Buffering`.  The `try` body has no failing step in the model, so the
`catch` branch (lines 659-667) is unreachable. -/
def loadTrack (p : Player) (t : Track) (preservePlayState : Bool) : Player :=
  let p := { p with isChangingTrack := true }
  let wasPlaying := preservePlayState && (p.playWhenReady || p.state == State.playing)
  let p := elemPause p
  let p := { p with elem := { p.elem with currentTime := 0, src := t.url } }
  let p := if preservePlayState then { p with playWhenReady := wasPlaying } else p
  updateState p State.buffering

/-- `add` (TrackPlayer.ts lines 788-828). -/
def add (p : Player) (tracks : List Track) (insertBeforeIndex : Option Int) : Player :=
  if tracks = [] then p
  else
    let p :=
      match insertBeforeIndex with
      | some i =>
        if 0 ≤ i ∧ i ≤ (p.queue.length : Int) then
          let p1 := { p with queue := spliceIn p.queue i tracks }
          if i ≤ p1.currentTrackIndex then
            { p1 with currentTrackIndex := p1.currentTrackIndex + tracks.length }
          else p1
        else { p with queue := p.queue ++ tracks }
      | Option.none => { p with queue := p.queue ++ tracks }
    if p.currentTrackIndex = -1 ∧ 0 < p.queue.length then
      let p := { p with currentTrackIndex := 0 }
      let p := loadTrack p (p.queue.headD { url := "" }) false
      emitEvent p (EventData.playbackTrackChanged Option.none 0)
    else p

/-- Modelled from the spec sentence "appends or splices at a validated
index (clamped to `[0, len]`)": insertion of the new tracks at the clamp
of the requested index into `[0, len]`.  This is the comparison point
for claim C2's clamping clause; the code's actual behavior is the `add`
above (which appends when the index is out of range). -/
def addInsertClamped (q : List Track) (i : Int) (ts : List Track) : List Track :=
  spliceIn q (max 0 (min i (q.length : Int))) ts

end TrackPlayer

/-- The error taxonomy of the thrown `Error`s (spec.md §7 names; the
TypeScript code throws plain `Error`s whose messages are quoted in the
doc comment of each operation below). -/
inductive Err
  | capabilityDisabled
  | indexOutOfBounds
  | noTrackLoaded
  | noTrackPlaying
  | noAdjacentTrack
deriving DecidableEq, Repr

namespace TrackPlayer

/-- `hasCapability` (TrackPlayer.ts lines 717-720). -/
def hasCapability (p : Player) (c : Capability) : Bool :=
  p.capabilities.contains c

/-- `move` (TrackPlayer.ts lines 837-886).  A thrown exception is
modelled as `(p, some e)`: the throws happen before any mutation, so the
state returned alongside the error is the unchanged one.  Messages:
`"From index ... is out of bounds"` / `"To index ... is out of bounds"`. -/
def move (p : Player) (fromIndex toIndex : Int) : Player × Option Err :=
  if fromIndex < 0 ∨ (p.queue.length : Int) ≤ fromIndex then (p, some Err.indexOutOfBounds)
  else if toIndex < 0 ∨ (p.queue.length : Int) ≤ toIndex then (p, some Err.indexOutOfBounds)
  else if fromIndex = toIndex then (p, Option.none)
  else
    let cur := p.currentTrackIndex
    let trackToMove := (getIdx p.queue fromIndex).getD { url := "" }
    let q := spliceOut p.queue fromIndex
    let q := spliceIn q toIndex [trackToMove]
    let idx :=
      if cur = fromIndex then toIndex
      else if fromIndex < cur ∧ cur ≤ toIndex then cur - 1
      else if cur < fromIndex ∧ toIndex ≤ cur then cur + 1
      else cur
    ({ p with queue := q, currentTrackIndex := idx }, Option.none)

/-- One iteration of the removal loop of `remove` (TrackPlayer.ts lines
909-930).  `origIdx` is the `currentIndex` captured before the loop (line
905) and `wasPlaying` the `state === State.Playing` captured at line 906;
both are compared against while `p.currentTrackIndex` is the live,
mutated field. -/
def removeStep (origIdx : Int) (wasPlaying : Bool) (p : Player) (index : Int) : Player :=
  if 0 ≤ index ∧ index < (p.queue.length : Int) then
    let p := { p with queue := spliceOut p.queue index }
    if index < origIdx then
      { p with currentTrackIndex := p.currentTrackIndex - 1 }
    else if index = origIdx then
      if 0 < p.queue.length then
        let newIdx := min origIdx ((p.queue.length : Int) - 1)
        let p := { p with currentTrackIndex := newIdx }
        loadTrack p ((getIdx p.queue newIdx).getD { url := "" }) wasPlaying
      else
        updateState { p with currentTrackIndex := -1 } State.stopped
    else p
  else p

/-- `remove` (TrackPlayer.ts lines 893-936): sorts the indices in
descending order and removes one by one. -/
def remove (p : Player) (indices : List Int) : Player :=
  if indices = [] then p
  else
    let origIdx := p.currentTrackIndex
    let wasPlaying := p.state == State.playing
    (sortDesc indices).foldl (removeStep origIdx wasPlaying) p

/-- The `isAtQueueEnd` test inside `play` (TrackPlayer.ts lines
1215-1219), with the short-circuit structure of the source `&&`. -/
def isAtQueueEnd (p : Player) : Bool :=
  p.state == State.stopped &&
    p.currentTrackIndex == (p.queue.length : Int) - 1 &&
    (decide (p.elem.duration - 1/10 ≤ p.elem.currentTime) || p.elem.duration == 0)

/-- The tail of `play` (TrackPlayer.ts lines 1255-1265): set
`playWhenReady` and invoke the media element's play primitive, which
succeeds in the model (no autoplay policy). -/
def finishPlay (p : Player) : Player × Option Err :=
  (elemPlay { p with playWhenReady := true }, Option.none)

/-- `play` (TrackPlayer.ts lines 1195-1266).  Throws
`"Play capability not enabled"` / `"No track is loaded"`.  The one-time
audio-graph initialization (lines 1207-1210) only touches the Web Audio
nodes, which the model abstracts away. -/
def play (p : Player) : Player × Option Err :=
  if ¬ hasCapability p Capability.play then (p, some Err.capabilityDisabled)
  else if (p.currentTrackIndex == -1 || isAtQueueEnd p) && decide (0 < p.queue.length) then
    let prevIdx := p.currentTrackIndex
    let p := { p with currentTrackIndex := 0 }
    let p := loadTrack p (p.queue.headD { url := "" }) false
    let p := { p with playWhenReady := true }
    let p := emitEvent p
      (EventData.playbackTrackChanged (if 0 ≤ prevIdx then some prevIdx else Option.none) 0)
    finishPlay p
  else if p.state == State.stopped && decide (0 ≤ p.currentTrackIndex) &&
      decide (p.elem.currentTime < p.elem.duration - 1/10) then
    let pos := p.elem.currentTime
    let p := loadTrack p ((getIdx p.queue p.currentTrackIndex).getD { url := "" }) false
    let p := if 0 < pos then { p with elem := { p.elem with currentTime := pos } } else p
    finishPlay { p with playWhenReady := true }
  else if p.currentTrackIndex = -1 then (p, some Err.noTrackLoaded)
  else finishPlay p

/-- `skip` (TrackPlayer.ts lines 944-973).  Throws
`"Skip capability not enabled"` / `"Track index ... is out of bounds"`. -/
def skip (p : Player) (index : Int) : Player × Option Err :=
  if ¬ hasCapability p Capability.skip then (p, some Err.capabilityDisabled)
  else if index < 0 ∨ (p.queue.length : Int) ≤ index then (p, some Err.indexOutOfBounds)
  else
    let prevIdx := p.currentTrackIndex
    let wasPlaying := p.state == State.playing || p.playWhenReady
    let p := { p with currentTrackIndex := index }
    let p := loadTrack p ((getIdx p.queue index).getD { url := "" }) wasPlaying
    let p := emitEvent p
      (EventData.playbackTrackChanged (if 0 ≤ prevIdx then some prevIdx else Option.none) index)
    play p

/-- `skipToNext` (TrackPlayer.ts lines 980-1037).  Throws
`"SkipToNext capability not enabled"` / `"No track is currently playing"`
/ `"No next track available"`. -/
def skipToNext (p : Player) : Player × Option Err :=
  if ¬ hasCapability p Capability.skipToNext then (p, some Err.capabilityDisabled)
  else if p.currentTrackIndex < 0 then (p, some Err.noTrackPlaying)
  else if p.repeatMode = RepeatMode.track then
    let wasPlaying := p.state == State.playing || p.playWhenReady
    let p := loadTrack p ((getIdx p.queue p.currentTrackIndex).getD { url := "" }) wasPlaying
    play p
  else if (p.queue.length : Int) - 1 ≤ p.currentTrackIndex then
    if p.repeatMode = RepeatMode.queue ∧ 0 < p.queue.length then
      let wasPlaying := p.state == State.playing || p.playWhenReady
      let p := { p with currentTrackIndex := 0 }
      let p := loadTrack p (p.queue.headD { url := "" }) wasPlaying
      let p := emitEvent p
        (EventData.playbackTrackChanged (some ((p.queue.length : Int) - 1)) p.currentTrackIndex)
      play p
    else (p, some Err.noAdjacentTrack)
  else
    let wasPlaying := p.state == State.playing || p.playWhenReady
    let p := { p with currentTrackIndex := p.currentTrackIndex + 1 }
    let p := loadTrack p ((getIdx p.queue p.currentTrackIndex).getD { url := "" }) wasPlaying
    let p := emitEvent p
      (EventData.playbackTrackChanged (some (p.currentTrackIndex - 1)) p.currentTrackIndex)
    play p

/-- `skipToPrevious` (TrackPlayer.ts lines 1044-1101). -/
def skipToPrevious (p : Player) : Player × Option Err :=
  if ¬ hasCapability p Capability.skipToPrevious then (p, some Err.capabilityDisabled)
  else if p.currentTrackIndex < 0 then (p, some Err.noTrackPlaying)
  else if p.repeatMode = RepeatMode.track then
    let wasPlaying := p.state == State.playing || p.playWhenReady
    let p := loadTrack p ((getIdx p.queue p.currentTrackIndex).getD { url := "" }) wasPlaying
    play p
  else if p.currentTrackIndex ≤ 0 then
    if p.repeatMode = RepeatMode.queue ∧ 0 < p.queue.length then
      let wasPlaying := p.state == State.playing || p.playWhenReady
      let p := { p with currentTrackIndex := (p.queue.length : Int) - 1 }
      let p := loadTrack p ((getIdx p.queue p.currentTrackIndex).getD { url := "" }) wasPlaying
      let p := emitEvent p (EventData.playbackTrackChanged (some 0) p.currentTrackIndex)
      play p
    else (p, some Err.noAdjacentTrack)
  else
    let wasPlaying := p.state == State.playing || p.playWhenReady
    let p := { p with currentTrackIndex := p.currentTrackIndex - 1 }
    let p := loadTrack p ((getIdx p.queue p.currentTrackIndex).getD { url := "" }) wasPlaying
    let p := emitEvent p
      (EventData.playbackTrackChanged (some (p.currentTrackIndex + 1)) p.currentTrackIndex)
    play p

/-- `getTrack` (TrackPlayer.ts lines 1117-1125): a pure read; the pair
result records that the call performs no mutation. -/
def getTrack (p : Player) (index : Int) : Option Track × Player :=
  if 0 ≤ index ∧ index < (p.queue.length : Int) then (getIdx p.queue index, p)
  else (Option.none, p)

/-- `getActiveTrackIndex` (TrackPlayer.ts lines 1140-1143). -/
def getActiveTrackIndex (p : Player) : Int :=
  p.currentTrackIndex

/-- `pause` (TrackPlayer.ts lines 1272-1289). -/
def pause (p : Player) : Player × Option Err :=
  if ¬ hasCapability p Capability.pause then (p, some Err.capabilityDisabled)
  else if p.currentTrackIndex = -1 then (p, some Err.noTrackLoaded)
  else (elemPause { p with playWhenReady := false }, Option.none)

/-- `stop` (TrackPlayer.ts lines 1295-1318). -/
def stop (p : Player) : Player × Option Err :=
  if ¬ hasCapability p Capability.stop then (p, some Err.capabilityDisabled)
  else if p.currentTrackIndex = -1 then (p, some Err.noTrackLoaded)
  else
    let p := elemPause { p with playWhenReady := false }
    let p := { p with elem := { p.elem with currentTime := 0, src := "" } }
    (updateState p State.stopped, Option.none)

/-- `seekTo` (TrackPlayer.ts lines 1325-1344). -/
def seekTo (p : Player) (position : ℚ) : Player × Option Err :=
  if ¬ hasCapability p Capability.seekTo then (p, some Err.capabilityDisabled)
  else if p.currentTrackIndex = -1 then (p, some Err.noTrackLoaded)
  else
    let p := { p with elem := { p.elem with currentTime := position } }
    (emitProgress p, Option.none)

/-- `seekBy` (TrackPlayer.ts lines 1377-1402): clamps the target
position to `min(currentTime + offset, duration - 0.01)` then to `≥ 0`,
and emits an immediate progress update. -/
def seekBy (p : Player) (offset : ℚ) : Player × Option Err :=
  if ¬ hasCapability p Capability.seekBy then (p, some Err.capabilityDisabled)
  else if p.currentTrackIndex = -1 then (p, some Err.noTrackLoaded)
  else
    let newPosition := p.elem.currentTime + offset
    let clampedPosition := min newPosition (p.elem.duration - 1/100)
    let p := { p with elem := { p.elem with currentTime := max 0 clampedPosition } }
    (emitProgress p, Option.none)

/-- `setRepeatMode` (TrackPlayer.ts lines 1177-1180). -/
def setRepeatMode (p : Player) (mode : RepeatMode) : Player :=
  { p with repeatMode := mode }

/-- `reset` (TrackPlayer.ts lines 1755-1764): `stop` with its error
swallowed, then clear the queue and cursor and return to `Ready`. -/
def reset (p : Player) : Player :=
  let p := (stop p).1
  let p := { p with queue := [], currentTrackIndex := -1 }
  updateState p State.ready

/-- `destroy` (TrackPlayer.ts lines 1770-1790): tears the element down
and assigns `state = State.None` directly (line 1787), bypassing
`updateState`, so no `PlaybackState` event is emitted.  The element's
asynchronous `pause` callback never reaches the (already cleared)
listener registry, so it is not modelled. -/
def destroy (p : Player) : Player :=
  { p with
    elem := { p.elem with paused := true, src := "" }
    queue := []
    currentTrackIndex := -1
    state := State.none }

/-- `setEqualizerEnabled` (TrackPlayer.ts lines 1537-1550): stores the
flag and, when filter nodes exist, writes `bands[index].gain` (enabled)
or `0` (disabled) into every filter's live gain; the stored `bands` are
never touched.  The filter list and the band list always have equal
length (both are created from `equalizerOptions.bands`). -/
def setEqualizerEnabled (p : Player) (enabled : Bool) : Player :=
  let p := { p with eqEnabled := enabled }
  match p.filterGains with
  | Option.none => p
  | some gs =>
    if enabled then { p with filterGains := some (p.bands.map (fun b => b.gain)) }
    else { p with filterGains := some (gs.map (fun _ => 0)) }

end TrackPlayer

/-- `DefaultOptions.capabilities` (TrackPlayer.ts lines 26-37). -/
def defaultCapabilities : List Capability :=
  [Capability.play, Capability.pause, Capability.stop, Capability.skip,
   Capability.skipToNext, Capability.skipToPrevious, Capability.seekTo,
   Capability.seekBy, Capability.setVolume, Capability.setRate]

/-- `DefaultEqualizerBands` (TrackPlayer.ts lines 40-51). -/
def defaultBands : List EqBand :=
  [32, 64, 125, 250, 500, 1000, 2000, 4000, 8000, 16000].map
    (fun f => { frequency := f, gain := 0, q := 1 })

/-- The instance right after `new TrackPlayer()` with its field
initializers (TrackPlayer.ts lines 59-82), together with a fresh idle
`<audio>` element. -/
def freshPlayer : Player :=
  { queue := []
    currentTrackIndex := -1
    state := State.none
    playWhenReady := false
    repeatMode := RepeatMode.off
    isChangingTrack := false
    capabilities := defaultCapabilities
    elem := { src := "", currentTime := 0, duration := 0, buffered := 0, paused := true }
    eqEnabled := false
    bands := defaultBands
    filterGains := some (defaultBands.map (fun b => b.gain))
    events := [] }

/-- `setupPlayer` with default options: `init` (TrackPlayer.ts lines
206-280) ends with `updateState(State.Ready)`; the equalizer setup
creates the ten filter nodes from the default bands. -/
def setupPlayer : Player :=
  TrackPlayer.updateState freshPlayer State.ready

/-- The public queue/transport operations a host can issue (the alphabet
quantified over by the sequence claims).  `destroy` ends the instance's
lifetime and is deliberately a separate definition. -/
inductive Op
  | add (tracks : List Track) (insertBeforeIndex : Option Int)
  | remove (indices : List Int)
  | move (fromIndex toIndex : Int)
  | skip (index : Int)
  | skipToNext
  | skipToPrevious
  | play
  | pause
  | stop
  | seekTo (position : ℚ)
  | seekBy (offset : ℚ)
  | reset
  | setRepeatMode (mode : RepeatMode)

/-- Apply one public operation; a thrown error leaves the instance in
the state it had reached when the throw happened (which the paired
results already carry). -/
def applyOp (p : Player) (o : Op) : Player :=
  match o with
  | Op.add ts i => TrackPlayer.add p ts i
  | Op.remove is => TrackPlayer.remove p is
  | Op.move i j => (TrackPlayer.move p i j).1
  | Op.skip i => (TrackPlayer.skip p i).1
  | Op.skipToNext => (TrackPlayer.skipToNext p).1
  | Op.skipToPrevious => (TrackPlayer.skipToPrevious p).1
  | Op.play => (TrackPlayer.play p).1
  | Op.pause => (TrackPlayer.pause p).1
  | Op.stop => (TrackPlayer.stop p).1
  | Op.seekTo pos => (TrackPlayer.seekTo p pos).1
  | Op.seekBy off => (TrackPlayer.seekBy p off).1
  | Op.reset => TrackPlayer.reset p
  | Op.setRepeatMode m => TrackPlayer.setRepeatMode p m

/-- Run a sequence of public operations. -/
def run (p : Player) (ops : List Op) : Player :=
  ops.foldl applyOp p

/-!
## The event-listener registry

`eventListeners : Map<Event, Set<EventHandler>>` (TrackPlayer.ts line 64).
Handlers are JavaScript function references compared by identity; the
model names them by `Nat` identifiers.  A `Set` keeps one copy of each
element in insertion order, which a list without duplicate insertion
mirrors; `Map` iteration/lookup order is insertion order of keys. -/

/-- `Set.prototype.add`: a no-op when the element is already present. -/
def setAdd (l : List Nat) (h : Nat) : List Nat :=
  if h ∈ l then l else l ++ [h]

/-- `Map.prototype.get(event)` followed by reading the `Set` in
iteration order (`[]` when the key is absent). -/
def getListeners : List (Event × List Nat) → Event → List Nat
  | [], _ => []
  | (e, l) :: rest, ev => if e = ev then l else getListeners rest ev

/-- `addEventListener` (TrackPlayer.ts lines 729-738): create the
per-event `Set` on first use, then `add` the handler to it. -/
def addEventListener : List (Event × List Nat) → Event → Nat → List (Event × List Nat)
  | [], ev, h => [(ev, [h])]
  | (e, l) :: rest, ev, h =>
    if e = ev then (e, setAdd l h) :: rest
    else (e, l) :: addEventListener rest ev h

/-- The sequence of handler invocations a single `emitEvent`
(TrackPlayer.ts lines 591-600) performs for an event of kind `ev`:
`listeners.forEach((listener) => listener(data))` calls each member of
the set exactly once, in insertion order. -/
def emitCalls (r : List (Event × List Nat)) (ev : Event) : List Nat :=
  getListeners r ev

/-- Every stored listener set is duplicate-free — true of every registry
the code can build, because entries are only ever inserted through
`Set.prototype.add`. -/
def WellFormedRegistry (r : List (Event × List Nat)) : Prop :=
  ∀ x ∈ r, x.2.Nodup

instance (r : List (Event × List Nat)) : Decidable (WellFormedRegistry r) := by
  unfold WellFormedRegistry; infer_instance

/-!
## Observations over the emission log
-/

/-- The values carried by the `PlaybackState` events of a log, in
emission order. -/
def stateLog (es : List EventData) : List State :=
  es.filterMap fun d =>
    match d with
    | EventData.playbackState s => some s
    | _ => Option.none

/-- The `(prevTrack, nextTrack)` payloads of the `PlaybackTrackChanged`
events of a log, in emission order. -/
def trackChangedLog (es : List EventData) : List (Option Int × Int) :=
  es.filterMap fun d =>
    match d with
    | EventData.playbackTrackChanged a b => some (a, b)
    | _ => Option.none

/-- The `(position, duration, buffered)` payloads of the
`PlaybackProgressUpdated` events of a log, in emission order. -/
def progressLog (es : List EventData) : List (ℚ × ℚ × ℚ) :=
  es.filterMap fun d =>
    match d with
    | EventData.playbackProgressUpdated pos dur buf => some (pos, dur, buf)
    | _ => Option.none

/-- The active-index invariant of spec.md §3: `getActiveTrackIndex()` is
`-1` or a valid queue position. -/
def IndexInvariant (p : Player) : Prop :=
  p.currentTrackIndex = -1 ∨
    (0 ≤ p.currentTrackIndex ∧ p.currentTrackIndex < (p.queue.length : Int))

instance (p : Player) : Decidable (IndexInvariant p) := by
  unfold IndexInvariant; infer_instance

/-- The state/emission coherence invariant: the `PlaybackState` events
emitted so far never repeat consecutively, and the last one emitted
carries the current value of the `state` field.  `updateState` preserves
it, and every public operation except `destroy` touches `state` only
through `updateState`. -/
def StOk (p : Player) : Prop :=
  List.Chain' (fun a b => a ≠ b) (stateLog p.events) ∧
    (stateLog p.events).getLast? = some p.state

/-- Sample tracks for the concrete runs below. -/
def trackA : Track := { url := "a" }

def trackB : Track := { url := "b" }

def trackC : Track := { url := "c" }

def trackD : Track := { url := "d" }

/-- A player with the equalizer enabled and a one-band configuration at
gain `5`, live filter in sync. -/
def eqPlayer : Player :=
  { setupPlayer with
    bands := [{ frequency := 32, gain := 5, q := 1 }]
    filterGains := some [5]
    eqEnabled := true }

/-- The player after adding `[A, B]` to a fresh setup (active index 0). -/
def c2Player : Player :=
  run setupPlayer [Op.add [trackA, trackB] Option.none]

/-- A single-track queue in `RepeatMode.Queue`. -/
def c5Player : Player :=
  { run setupPlayer [Op.add [trackA] Option.none] with repeatMode := RepeatMode.queue }

/-- The operations of the C1 violation: `[A]` (active 0), insert `[B]`
before index 0 (active shifts to 1), append `[C, D]`, then
`remove([0, 0, 0])` — a remove call with duplicated indices. -/
def c1ops : List Op :=
  [Op.add [trackA] Option.none, Op.add [trackB] (some 0),
   Op.add [trackC, trackD] Option.none, Op.remove [0, 0, 0]]

/-- The operations of the C6 counterexample: make `[A, B]` with active
index `1`, then `remove([0, 1])` — the removed indices include the
active index and the queue becomes empty. -/
def c6ops : List Op :=
  [Op.add [trackA, trackB] Option.none, Op.skip 1, Op.remove [0, 1]]

/-- A player with one loaded track of duration `1` at position `0`. -/
def seekPlayer : Player :=
  { setupPlayer with
    queue := [trackA]
    currentTrackIndex := 0
    elem := { src := "a", currentTime := 0, duration := 1, buffered := 0, paused := true } }

/-!
## Frame lemmas for the primitive helpers
-/

namespace TrackPlayer

theorem hasCapability_eq_true {p : Player} {c : Capability} (h : c ∈ p.capabilities) :
    hasCapability p c = true := by
  unfold hasCapability
  exact List.elem_eq_true_of_mem h

@[simp] theorem updateState_state (p : Player) (s : State) : (updateState p s).state = s := by
  unfold updateState emitEvent
  split
  · rfl
  · next h => simpa using h

@[simp] theorem updateState_queue (p : Player) (s : State) : (updateState p s).queue = p.queue := by
  unfold updateState emitEvent; split <;> rfl

@[simp] theorem updateState_idx (p : Player) (s : State) :
    (updateState p s).currentTrackIndex = p.currentTrackIndex := by
  unfold updateState emitEvent; split <;> rfl

@[simp] theorem updateState_pwr (p : Player) (s : State) :
    (updateState p s).playWhenReady = p.playWhenReady := by
  unfold updateState emitEvent; split <;> rfl

@[simp] theorem updateState_changing (p : Player) (s : State) :
    (updateState p s).isChangingTrack = p.isChangingTrack := by
  unfold updateState emitEvent; split <;> rfl

@[simp] theorem updateState_caps (p : Player) (s : State) :
    (updateState p s).capabilities = p.capabilities := by
  unfold updateState emitEvent; split <;> rfl

@[simp] theorem updateState_repeat (p : Player) (s : State) :
    (updateState p s).repeatMode = p.repeatMode := by
  unfold updateState emitEvent; split <;> rfl

@[simp] theorem updateState_elem (p : Player) (s : State) :
    (updateState p s).elem = p.elem := by
  unfold updateState emitEvent; split <;> rfl

@[simp] theorem updateState_bands (p : Player) (s : State) :
    (updateState p s).bands = p.bands := by
  unfold updateState emitEvent; split <;> rfl

theorem trackChangedLog_append (a b : List EventData) :
    trackChangedLog (a ++ b) = trackChangedLog a ++ trackChangedLog b := by
  unfold trackChangedLog; exact List.filterMap_append ..

theorem stateLog_append (a b : List EventData) :
    stateLog (a ++ b) = stateLog a ++ stateLog b := by
  unfold stateLog; exact List.filterMap_append ..

theorem progressLog_append (a b : List EventData) :
    progressLog (a ++ b) = progressLog a ++ progressLog b := by
  unfold progressLog; exact List.filterMap_append ..

@[simp] theorem updateState_tclog (p : Player) (s : State) :
    trackChangedLog (updateState p s).events = trackChangedLog p.events := by
  unfold updateState emitEvent
  split
  · show trackChangedLog (p.events ++ [EventData.playbackState s]) = _
    rw [trackChangedLog_append]; simp [trackChangedLog]
  · rfl

@[simp] theorem elemPause_queue (p : Player) : (elemPause p).queue = p.queue := by
  unfold elemPause onPauseEvent; split <;> try rfl
  split <;> simp

@[simp] theorem elemPause_idx (p : Player) :
    (elemPause p).currentTrackIndex = p.currentTrackIndex := by
  unfold elemPause onPauseEvent; split <;> try rfl
  split <;> simp

@[simp] theorem elemPause_pwr (p : Player) :
    (elemPause p).playWhenReady = p.playWhenReady := by
  unfold elemPause onPauseEvent; split <;> try rfl
  split <;> simp

@[simp] theorem elemPause_changing (p : Player) :
    (elemPause p).isChangingTrack = p.isChangingTrack := by
  unfold elemPause onPauseEvent; split <;> try rfl
  split <;> simp

@[simp] theorem elemPause_caps (p : Player) :
    (elemPause p).capabilities = p.capabilities := by
  unfold elemPause onPauseEvent; split <;> try rfl
  split <;> simp

@[simp] theorem elemPause_repeat (p : Player) :
    (elemPause p).repeatMode = p.repeatMode := by
  unfold elemPause onPauseEvent; split <;> try rfl
  split <;> simp

@[simp] theorem elemPause_src (p : Player) : (elemPause p).elem.src = p.elem.src := by
  unfold elemPause onPauseEvent; split <;> try rfl
  split <;> simp

@[simp] theorem elemPause_time (p : Player) :
    (elemPause p).elem.currentTime = p.elem.currentTime := by
  unfold elemPause onPauseEvent; split <;> try rfl
  split <;> simp

@[simp] theorem elemPause_duration (p : Player) :
    (elemPause p).elem.duration = p.elem.duration := by
  unfold elemPause onPauseEvent; split <;> try rfl
  split <;> simp

@[simp] theorem elemPause_tclog (p : Player) :
    trackChangedLog (elemPause p).events = trackChangedLog p.events := by
  unfold elemPause onPauseEvent; split <;> try rfl
  split <;> simp

theorem elemPause_state_of_changing {p : Player} (h : p.isChangingTrack = true) :
    (elemPause p).state = p.state := by
  unfold elemPause onPauseEvent
  split <;> simp [h]

theorem elemPause_events_of_changing {p : Player} (h : p.isChangingTrack = true) :
    (elemPause p).events = p.events := by
  unfold elemPause onPauseEvent
  split <;> simp [h]

@[simp] theorem elemPlay_queue (p : Player) : (elemPlay p).queue = p.queue := by
  unfold elemPlay onPlayEvent; split <;> try rfl
  split <;> simp

@[simp] theorem elemPlay_idx (p : Player) :
    (elemPlay p).currentTrackIndex = p.currentTrackIndex := by
  unfold elemPlay onPlayEvent; split <;> try rfl
  split <;> simp

@[simp] theorem elemPlay_pwr (p : Player) :
    (elemPlay p).playWhenReady = p.playWhenReady := by
  unfold elemPlay onPlayEvent; split <;> try rfl
  split <;> simp

@[simp] theorem elemPlay_caps (p : Player) :
    (elemPlay p).capabilities = p.capabilities := by
  unfold elemPlay onPlayEvent; split <;> try rfl
  split <;> simp

@[simp] theorem elemPlay_src (p : Player) : (elemPlay p).elem.src = p.elem.src := by
  unfold elemPlay onPlayEvent; split <;> try rfl
  split <;> simp

@[simp] theorem elemPlay_tclog (p : Player) :
    trackChangedLog (elemPlay p).events = trackChangedLog p.events := by
  unfold elemPlay onPlayEvent; split <;> try rfl
  split <;> simp

theorem elemPlay_of_changing {p : Player} (h : p.isChangingTrack = true) :
    elemPlay p = { p with elem := { p.elem with paused := false } } := by
  unfold elemPlay onPlayEvent
  split
  · simp [h]
  · next hp =>
    simp only [Bool.not_eq_true] at hp
    have he : { p.elem with paused := false } = p.elem := by
      cases hpe : p.elem with
      | mk s c d bf pa => simp_all
    rw [he]

@[simp] theorem loadTrack_queue (p : Player) (t : Track) (b : Bool) :
    (loadTrack p t b).queue = p.queue := by
  unfold loadTrack; split <;> simp

@[simp] theorem loadTrack_idx (p : Player) (t : Track) (b : Bool) :
    (loadTrack p t b).currentTrackIndex = p.currentTrackIndex := by
  unfold loadTrack; split <;> simp

@[simp] theorem loadTrack_caps (p : Player) (t : Track) (b : Bool) :
    (loadTrack p t b).capabilities = p.capabilities := by
  unfold loadTrack; split <;> simp

@[simp] theorem loadTrack_repeat (p : Player) (t : Track) (b : Bool) :
    (loadTrack p t b).repeatMode = p.repeatMode := by
  unfold loadTrack; split <;> simp

@[simp] theorem loadTrack_state (p : Player) (t : Track) (b : Bool) :
    (loadTrack p t b).state = State.buffering := by
  unfold loadTrack; split <;> simp

@[simp] theorem loadTrack_changing (p : Player) (t : Track) (b : Bool) :
    (loadTrack p t b).isChangingTrack = true := by
  unfold loadTrack; split <;> simp

@[simp] theorem loadTrack_src (p : Player) (t : Track) (b : Bool) :
    (loadTrack p t b).elem.src = t.url := by
  unfold loadTrack; split <;> simp

@[simp] theorem loadTrack_tclog (p : Player) (t : Track) (b : Bool) :
    trackChangedLog (loadTrack p t b).events = trackChangedLog p.events := by
  unfold loadTrack; split <;> simp

@[simp] theorem loadTrack_pwr (p : Player) (t : Track) (b : Bool) :
    (loadTrack p t b).playWhenReady =
      if b then (p.playWhenReady || p.state == State.playing) else p.playWhenReady := by
  unfold loadTrack; split <;> simp_all

@[simp] theorem emitProgress_queue (p : Player) : (emitProgress p).queue = p.queue := by
  unfold emitProgress emitEvent; rfl

@[simp] theorem emitProgress_idx (p : Player) :
    (emitProgress p).currentTrackIndex = p.currentTrackIndex := by
  unfold emitProgress emitEvent; rfl

@[simp] theorem emitProgress_state (p : Player) : (emitProgress p).state = p.state := by
  unfold emitProgress emitEvent; rfl

@[simp] theorem emitProgress_elem (p : Player) : (emitProgress p).elem = p.elem := by
  unfold emitProgress emitEvent; rfl

@[simp] theorem emitEvent_state (p : Player) (d : EventData) :
    (emitEvent p d).state = p.state := rfl

@[simp] theorem emitEvent_queue (p : Player) (d : EventData) :
    (emitEvent p d).queue = p.queue := rfl

@[simp] theorem emitEvent_idx (p : Player) (d : EventData) :
    (emitEvent p d).currentTrackIndex = p.currentTrackIndex := rfl

@[simp] theorem emitEvent_pwr (p : Player) (d : EventData) :
    (emitEvent p d).playWhenReady = p.playWhenReady := rfl

@[simp] theorem emitEvent_changing (p : Player) (d : EventData) :
    (emitEvent p d).isChangingTrack = p.isChangingTrack := rfl

@[simp] theorem emitEvent_caps (p : Player) (d : EventData) :
    (emitEvent p d).capabilities = p.capabilities := rfl

@[simp] theorem emitEvent_elem (p : Player) (d : EventData) :
    (emitEvent p d).elem = p.elem := rfl

@[simp] theorem emitEvent_events (p : Player) (d : EventData) :
    (emitEvent p d).events = p.events ++ [d] := rfl

@[simp] theorem trackChangedLog_single_tc (a : Option Int) (n : Int) :
    trackChangedLog [EventData.playbackTrackChanged a n] = [(a, n)] := rfl

@[simp] theorem trackChangedLog_single_state (s : State) :
    trackChangedLog [EventData.playbackState s] = [] := rfl

@[simp] theorem stateLog_single_state (s : State) :
    stateLog [EventData.playbackState s] = [s] := rfl

@[simp] theorem stateLog_single_tc (a : Option Int) (n : Int) :
    stateLog [EventData.playbackTrackChanged a n] = [] := rfl

@[simp] theorem stateLog_single_progress (a b c : ℚ) :
    stateLog [EventData.playbackProgressUpdated a b c] = [] := rfl

@[simp] theorem stateLog_single_error :
    stateLog [EventData.playbackError] = [] := rfl

theorem isAtQueueEnd_of_ne {p : Player} (h : p.state ≠ State.stopped) :
    isAtQueueEnd p = false := by
  simp [isAtQueueEnd, h]

/-- Calling `play` right after a `loadTrack` (the tail of `skip`,
`skipToNext`, `skipToPrevious` and of the queue-wrap branches): the
player is `Buffering` mid-track-change with a valid index, so `play`
only sets the intent flag and un-pauses the element. -/
theorem play_after_load (p : Player)
    (hcap : Capability.play ∈ p.capabilities)
    (hst : p.state = State.buffering)
    (hidx : 0 ≤ p.currentTrackIndex)
    (hch : p.isChangingTrack = true) :
    play p =
      ({ p with playWhenReady := true, elem := { p.elem with paused := false } },
        Option.none) := by
  have hs : p.state ≠ State.stopped := by rw [hst]; decide
  have h1 : hasCapability p Capability.play = true := hasCapability_eq_true hcap
  have hq : isAtQueueEnd p = false := isAtQueueEnd_of_ne hs
  have hne : (p.currentTrackIndex == -1) = false := by
    simpa using (by omega : ¬ p.currentTrackIndex = -1)
  have hsb : (p.state == State.stopped) = false := by simpa using hs
  have hne2 : ¬ p.currentTrackIndex = -1 := by omega
  unfold play finishPlay
  simp [h1, hq, hne, hsb, hne2, elemPlay_of_changing, hch]

theorem play_snd_after_load (p : Player)
    (hcap : Capability.play ∈ p.capabilities) (hst : p.state = State.buffering)
    (hidx : 0 ≤ p.currentTrackIndex) (hch : p.isChangingTrack = true) :
    (play p).2 = Option.none := by
  rw [play_after_load p hcap hst hidx hch]

theorem play_state_after_load (p : Player)
    (hcap : Capability.play ∈ p.capabilities) (hst : p.state = State.buffering)
    (hidx : 0 ≤ p.currentTrackIndex) (hch : p.isChangingTrack = true) :
    (play p).1.state = State.buffering := by
  rw [play_after_load p hcap hst hidx hch]; exact hst

theorem play_idx_after_load (p : Player)
    (hcap : Capability.play ∈ p.capabilities) (hst : p.state = State.buffering)
    (hidx : 0 ≤ p.currentTrackIndex) (hch : p.isChangingTrack = true) :
    (play p).1.currentTrackIndex = p.currentTrackIndex := by
  rw [play_after_load p hcap hst hidx hch]

theorem play_queue_after_load (p : Player)
    (hcap : Capability.play ∈ p.capabilities) (hst : p.state = State.buffering)
    (hidx : 0 ≤ p.currentTrackIndex) (hch : p.isChangingTrack = true) :
    (play p).1.queue = p.queue := by
  rw [play_after_load p hcap hst hidx hch]

theorem play_src_after_load (p : Player)
    (hcap : Capability.play ∈ p.capabilities) (hst : p.state = State.buffering)
    (hidx : 0 ≤ p.currentTrackIndex) (hch : p.isChangingTrack = true) :
    (play p).1.elem.src = p.elem.src := by
  rw [play_after_load p hcap hst hidx hch]

theorem play_pwr_after_load (p : Player)
    (hcap : Capability.play ∈ p.capabilities) (hst : p.state = State.buffering)
    (hidx : 0 ≤ p.currentTrackIndex) (hch : p.isChangingTrack = true) :
    (play p).1.playWhenReady = true := by
  rw [play_after_load p hcap hst hidx hch]

theorem play_tclog_after_load (p : Player)
    (hcap : Capability.play ∈ p.capabilities) (hst : p.state = State.buffering)
    (hidx : 0 ≤ p.currentTrackIndex) (hch : p.isChangingTrack = true) :
    trackChangedLog (play p).1.events = trackChangedLog p.events := by
  rw [play_after_load p hcap hst hidx hch]

end TrackPlayer

/-!
## Claims
-/

/-- **C9.** For every index outside `[0, queueLength)`, `getTrack(index)`
returns `undefined` (`none`) rather than throwing, and the queue and all
other player state remain unchanged (`getTrack` performs no mutation:
TrackPlayer.ts lines 1117-1125 only read). -/
theorem c9_getTrack_out_of_range (p : Player) (i : Int)
    (h : i < 0 ∨ (p.queue.length : Int) ≤ i) :
    (TrackPlayer.getTrack p i).1 = Option.none ∧ (TrackPlayer.getTrack p i).2 = p := by
  have hn : ¬ (0 ≤ i ∧ i < (p.queue.length : Int)) := by omega
  unfold TrackPlayer.getTrack
  rw [if_neg hn]
  exact ⟨rfl, rfl⟩

/-- Witness for C9 at the concrete out-of-range index `5` on the fresh
player. -/
theorem c9_getTrack_out_of_range_witness :
    ((5 : Int) < 0 ∨ ((setupPlayer.queue.length : Int) ≤ 5)) ∧
      ((TrackPlayer.getTrack setupPlayer 5).1 = Option.none ∧
        (TrackPlayer.getTrack setupPlayer 5).2 = setupPlayer) :=
  ⟨Or.inr (by decide), c9_getTrack_out_of_range setupPlayer 5 (Or.inr (by decide))⟩

/-- **C4.** With `RepeatMode.Off` and the active index at the last queue
position, `skipToNext` fails with the `NoAdjacentTrack` error
(`"No next track available"`, TrackPlayer.ts line 1020) and returns the
player completely unchanged — in particular the active index and the
queue are untouched (the throw happens before any mutation). -/
theorem c4_skipToNext_off_at_end (p : Player)
    (hcap : Capability.skipToNext ∈ p.capabilities)
    (hmode : p.repeatMode = RepeatMode.off)
    (hlen : 0 < p.queue.length)
    (hidx : p.currentTrackIndex = (p.queue.length : Int) - 1) :
    TrackPlayer.skipToNext p = (p, some Err.noAdjacentTrack) := by
  have h1 : TrackPlayer.hasCapability p Capability.skipToNext = true :=
    TrackPlayer.hasCapability_eq_true hcap
  have h2 : ¬ p.currentTrackIndex < 0 := by omega
  have h3 : ¬ p.repeatMode = RepeatMode.track := by rw [hmode]; decide
  have h4 : (p.queue.length : Int) - 1 ≤ p.currentTrackIndex := by omega
  have h5 : ¬ (p.repeatMode = RepeatMode.queue ∧ 0 < p.queue.length) := by
    rintro ⟨hq, -⟩
    rw [hmode] at hq
    cases hq
  unfold TrackPlayer.skipToNext
  simp [h1, h2, h3, h4, h5]

/-- Witness for C4: queue `[A, B]`, active index `1`, repeat off. -/
theorem c4_skipToNext_off_at_end_witness :
    (Capability.skipToNext ∈
        (run setupPlayer [Op.add [trackA, trackB] Option.none, Op.skip 1]).capabilities) ∧
      (run setupPlayer [Op.add [trackA, trackB] Option.none, Op.skip 1]).repeatMode
          = RepeatMode.off ∧
      0 < (run setupPlayer [Op.add [trackA, trackB] Option.none, Op.skip 1]).queue.length ∧
      (run setupPlayer [Op.add [trackA, trackB] Option.none, Op.skip 1]).currentTrackIndex =
        ((run setupPlayer [Op.add [trackA, trackB] Option.none, Op.skip 1]).queue.length : Int)
          - 1 ∧
      TrackPlayer.skipToNext (run setupPlayer [Op.add [trackA, trackB] Option.none, Op.skip 1])
        = (run setupPlayer [Op.add [trackA, trackB] Option.none, Op.skip 1],
            some Err.noAdjacentTrack) :=
  ⟨by decide, by decide, by decide, by decide,
    c4_skipToNext_off_at_end _ (by decide) (by decide) (by decide) (by decide)⟩

/-- **C8.** Disabling the equalizer forces the effective (live filter)
gain of every band to zero without changing the stored band gains, and
re-enabling with no intervening gain mutation restores exactly the prior
gain vector.  The hypothesis `hsync` — the live filter gains agree with
the stored band gains — holds in every reachable state in which the
equalizer is enabled, since every write path (`setEqualizerEnabled(true)`,
`setEqualizerBandGain`, `setEqualizerBands`, `resetEqualizer`,
`createAudioFilters`) keeps the two in sync while enabled. -/
theorem c8_equalizer_disable_enable_roundtrip (p : Player) (gs : List ℚ)
    (hfg : p.filterGains = some gs)
    (hsync : gs = p.bands.map (fun b => b.gain)) :
    (TrackPlayer.setEqualizerEnabled p false).filterGains = some (gs.map (fun _ => 0)) ∧
      (TrackPlayer.setEqualizerEnabled p false).bands = p.bands ∧
      (TrackPlayer.setEqualizerEnabled p false).eqEnabled = false ∧
      (TrackPlayer.setEqualizerEnabled
        (TrackPlayer.setEqualizerEnabled p false) true).filterGains = p.filterGains ∧
      (TrackPlayer.setEqualizerEnabled
        (TrackPlayer.setEqualizerEnabled p false) true).bands = p.bands ∧
      (TrackPlayer.setEqualizerEnabled
        (TrackPlayer.setEqualizerEnabled p false) true).eqEnabled = true := by
  unfold TrackPlayer.setEqualizerEnabled
  simp [hfg, hsync]

/-- Witness for C8 on `eqPlayer`. -/
theorem c8_equalizer_disable_enable_roundtrip_witness :
    eqPlayer.filterGains = some [5] ∧
      ([(5 : ℚ)] = eqPlayer.bands.map (fun b => b.gain)) ∧
      ((TrackPlayer.setEqualizerEnabled eqPlayer false).filterGains
        = some ([(5 : ℚ)].map (fun _ => 0))) ∧
      ((TrackPlayer.setEqualizerEnabled
          (TrackPlayer.setEqualizerEnabled eqPlayer false) true).filterGains
        = eqPlayer.filterGains) :=
  ⟨rfl, rfl,
    (c8_equalizer_disable_enable_roundtrip eqPlayer [5] rfl rfl).1,
    (c8_equalizer_disable_enable_roundtrip eqPlayer [5] rfl rfl).2.2.2.1⟩

theorem setAdd_idem (l : List Nat) (h : Nat) : setAdd (setAdd l h) h = setAdd l h := by
  by_cases hm : h ∈ l
  · simp [setAdd, hm]
  · simp [setAdd, hm]

theorem getListeners_add (r : List (Event × List Nat)) (ev : Event) (h : Nat) :
    getListeners (addEventListener r ev h) ev = setAdd (getListeners r ev) h := by
  induction r with
  | nil => simp [addEventListener, getListeners, setAdd]
  | cons x rest ih =>
    obtain ⟨e, l⟩ := x
    by_cases he : e = ev
    · subst he; simp [addEventListener, getListeners]
    · simp [addEventListener, getListeners, he, ih]

theorem addEventListener_idem (r : List (Event × List Nat)) (ev : Event) (h : Nat) :
    addEventListener (addEventListener r ev h) ev h = addEventListener r ev h := by
  induction r with
  | nil => simp [addEventListener, setAdd_idem, setAdd]
  | cons x rest ih =>
    obtain ⟨e, l⟩ := x
    by_cases he : e = ev
    · subst he; simp [addEventListener, setAdd_idem]
    · simp [addEventListener, he, ih]

theorem getListeners_nodup (r : List (Event × List Nat)) (ev : Event) :
    WellFormedRegistry r → (getListeners r ev).Nodup := by
  induction r with
  | nil => intro _; simp [getListeners]
  | cons x rest ih =>
    intro hwf
    obtain ⟨e, l⟩ := x
    have h1 : l.Nodup := hwf (e, l) (List.mem_cons_self _ _)
    have h2 : WellFormedRegistry rest := fun y hy => hwf y (List.mem_cons_of_mem _ hy)
    by_cases he : e = ev
    · simpa [getListeners, he] using h1
    · simpa [getListeners, he] using ih h2

theorem count_setAdd {l : List Nat} {h : Nat} (hnd : l.Nodup) : (setAdd l h).count h = 1 := by
  by_cases hm : h ∈ l
  · rw [setAdd, if_pos hm]
    exact List.count_eq_one_of_mem hnd hm
  · rw [setAdd, if_neg hm]
    rw [List.count_append]
    simp [List.count_eq_zero_of_not_mem hm]

/-- **C10.** Registering the same handler twice for the same event is
idempotent — the registry (a `Map` of `Set`s) holds it once — and an
emission of that event therefore invokes the handler exactly once. -/
theorem c10_addEventListener_idempotent (r : List (Event × List Nat)) (ev : Event) (h : Nat)
    (hwf : WellFormedRegistry r) :
    addEventListener (addEventListener r ev h) ev h = addEventListener r ev h ∧
      (emitCalls (addEventListener r ev h) ev).count h = 1 :=
  ⟨addEventListener_idem r ev h, by
    rw [emitCalls, getListeners_add]
    exact count_setAdd (getListeners_nodup r ev hwf)⟩

/-- Witness for C10: a registry already holding handler `7` for
`PlaybackState`; adding handler `7` again for that event. -/
theorem c10_addEventListener_idempotent_witness :
    WellFormedRegistry [(Event.playbackState, [7])] ∧
      (addEventListener (addEventListener [(Event.playbackState, [7])] Event.playbackState 7)
          Event.playbackState 7
        = addEventListener [(Event.playbackState, [7])] Event.playbackState 7 ∧
      (emitCalls (addEventListener [(Event.playbackState, [7])] Event.playbackState 7)
          Event.playbackState).count 7 = 1) :=
  ⟨by decide, c10_addEventListener_idempotent [(Event.playbackState, [7])]
    Event.playbackState 7 (by decide)⟩

/-- **C3.** `seekBy(offset)` with a track loaded clamps the new position
to `max(0, min(currentTime + offset, duration − 0.01))`; with a positive
duration the result lies in `[0, duration)`, and in `[0, duration − ε]`
(ε = 0.01) whenever the duration is at least ε (for shorter durations
that interval is empty and the result is `0`).  An immediate progress
update carrying the new position is emitted by the same call. -/
theorem c3_seekBy_clamped (p : Player) (offset : ℚ)
    (hcap : Capability.seekBy ∈ p.capabilities)
    (hidx : ¬ p.currentTrackIndex = -1)
    (hdur : 0 < p.elem.duration) :
    (TrackPlayer.seekBy p offset).2 = Option.none ∧
      (TrackPlayer.seekBy p offset).1.elem.currentTime =
        max 0 (min (p.elem.currentTime + offset) (p.elem.duration - 1/100)) ∧
      0 ≤ (TrackPlayer.seekBy p offset).1.elem.currentTime ∧
      (TrackPlayer.seekBy p offset).1.elem.currentTime < p.elem.duration ∧
      (1/100 ≤ p.elem.duration →
        (TrackPlayer.seekBy p offset).1.elem.currentTime ≤ p.elem.duration - 1/100) ∧
      (∃ d, progressLog (TrackPlayer.seekBy p offset).1.events =
        progressLog p.events ++
          [(max 0 (min (p.elem.currentTime + offset) (p.elem.duration - 1/100)), d,
            p.elem.buffered)]) := by
  have h1 : TrackPlayer.hasCapability p Capability.seekBy = true :=
    TrackPlayer.hasCapability_eq_true hcap
  have hres : TrackPlayer.seekBy p offset =
      (TrackPlayer.emitProgress
        { p with elem := { p.elem with
            currentTime := max 0 (min (p.elem.currentTime + offset)
              (p.elem.duration - 1/100)) } }, Option.none) := by
    unfold TrackPlayer.seekBy
    rw [if_neg (by simp [h1]), if_neg hidx]
  have hle : min (p.elem.currentTime + offset) (p.elem.duration - 1/100)
      ≤ p.elem.duration - 1/100 := min_le_right _ _
  rw [hres]
  have hct : (TrackPlayer.emitProgress
      { p with elem := { p.elem with
          currentTime := max 0 (min (p.elem.currentTime + offset)
            (p.elem.duration - 1/100)) } }).elem.currentTime
      = max 0 (min (p.elem.currentTime + offset) (p.elem.duration - 1/100)) := by simp
  refine ⟨rfl, hct, ?_, ?_, ?_, ?_⟩
  · rw [hct]; exact le_max_left 0 _
  · rw [hct]
    exact max_lt hdur (lt_of_le_of_lt hle (by linarith))
  · intro he
    rw [hct]
    exact max_le (by linarith) hle
  · refine ⟨TrackPlayer.reportedDuration
      { p with elem := { p.elem with
          currentTime := max 0 (min (p.elem.currentTime + offset)
            (p.elem.duration - 1/100)) } }, ?_⟩
    unfold TrackPlayer.emitProgress TrackPlayer.emitEvent
    show progressLog (p.events ++ [_]) = _
    rw [TrackPlayer.progressLog_append]
    simp [progressLog]

/-- **C2 (counterexample).** `add([C], -1)` on queue `[A, B]`: a clamped
insertion index (`clamp(-1) = 0`) would prepend, giving `[C, A, B]`, but
the code's validation (`insertBeforeIndex >= 0 && <= len`) fails and
falls back to appending, giving `[A, B, C]`.  The insertion index is not
clamped. -/
theorem c2_add_negative_index_not_clamped :
    (TrackPlayer.add c2Player [trackC] (some (-1))).queue = [trackA, trackB, trackC] ∧
      TrackPlayer.addInsertClamped c2Player.queue (-1) [trackC] = [trackC, trackA, trackB] ∧
      ¬ (TrackPlayer.add c2Player [trackC] (some (-1))).queue
          = TrackPlayer.addInsertClamped c2Player.queue (-1) [trackC] := by
  decide

/-- **C2 (amended).** `add(tracks, insertBeforeIndex)`: an in-range
index in `[0, len]` splices the tracks there; an out-of-range index (or
no index) appends them at the end.  If insertion occurs at or before the
active index, the active index shifts forward by the inserted count,
otherwise it is unchanged.  If the queue was previously empty and
nothing was active, the first added track becomes active (index 0), is
loaded without preserving play state (`playWhenReady` untouched, state
`Buffering`, source = first added track), and exactly one
`PlaybackTrackChanged` event with `prevTrack = null`, `nextTrack = 0` is
emitted. -/
theorem c2_add_amended (p : Player) (ts : List Track) (i : Int) (ib : Option Int)
    (hts : ts ≠ []) :
    ((0 ≤ i ∧ i ≤ (p.queue.length : Int)) →
      (TrackPlayer.add p ts (some i)).queue = spliceIn p.queue i ts) ∧
    (¬ (0 ≤ i ∧ i ≤ (p.queue.length : Int)) →
      (TrackPlayer.add p ts (some i)).queue = p.queue ++ ts) ∧
    ((TrackPlayer.add p ts Option.none).queue = p.queue ++ ts) ∧
    (0 ≤ p.currentTrackIndex →
      (TrackPlayer.add p ts (some i)).currentTrackIndex =
        if 0 ≤ i ∧ i ≤ (p.queue.length : Int) ∧ i ≤ p.currentTrackIndex
        then p.currentTrackIndex + ts.length else p.currentTrackIndex) ∧
    (p.queue = [] ∧ p.currentTrackIndex = -1 →
      (TrackPlayer.add p ts ib).currentTrackIndex = 0 ∧
      (TrackPlayer.add p ts ib).state = State.buffering ∧
      (TrackPlayer.add p ts ib).playWhenReady = p.playWhenReady ∧
      (TrackPlayer.add p ts ib).elem.src = (ts.headD { url := "" }).url ∧
      trackChangedLog (TrackPlayer.add p ts ib).events =
        trackChangedLog p.events ++ [(Option.none, 0)]) := by
  have hlen : 0 < ts.length := List.length_pos.mpr hts
  refine ⟨?_, ?_, ?_, ?_, ?_⟩
  · intro hin
    simp only [TrackPlayer.add, hts, if_false]
    rw [if_pos hin]
    split <;> split <;> simp [TrackPlayer.emitEvent]
  · intro hin
    simp only [TrackPlayer.add, hts, if_false]
    rw [if_neg hin]
    split <;> simp [TrackPlayer.emitEvent]
  · simp only [TrackPlayer.add, hts, if_false]
    split <;> simp [TrackPlayer.emitEvent]
  · intro hidx0
    simp only [TrackPlayer.add, hts, if_false]
    by_cases hin : 0 ≤ i ∧ i ≤ (p.queue.length : Int)
    · rw [if_pos hin]
      by_cases hsh : i ≤ p.currentTrackIndex
      · rw [if_pos hsh]
        rw [if_neg (fun hh => absurd hh.1 (by omega) : ¬ (p.currentTrackIndex + (ts.length : Int) = -1 ∧
          0 < (spliceIn p.queue i ts).length))]
        rw [if_pos ⟨hin.1, hin.2, hsh⟩]
      · rw [if_neg hsh]
        rw [if_neg (fun hh => absurd hh.1 (by omega) : ¬ (p.currentTrackIndex = -1 ∧
          0 < (spliceIn p.queue i ts).length))]
        rw [if_neg (by tauto)]
    · rw [if_neg hin]
      rw [if_neg (fun hh => absurd hh.1 (by omega) : ¬ (p.currentTrackIndex = -1 ∧
        0 < (p.queue ++ ts).length))]
      rw [if_neg (by tauto)]
  · rintro ⟨hq, hidx⟩
    have hsplice : ∀ j : Int, spliceIn p.queue j ts = ts := by
      intro j; simp [spliceIn, hq]
    have happ : p.queue ++ ts = ts := by simp [hq]
    cases ib with
    | none =>
      simp only [TrackPlayer.add, hts, if_false]
      rw [if_pos (by rw [happ]; exact ⟨hidx, hlen⟩ :
        ({ p with queue := p.queue ++ ts } : Player).currentTrackIndex = -1 ∧
          0 < ({ p with queue := p.queue ++ ts } : Player).queue.length)]
      refine ⟨by simp [TrackPlayer.emitEvent], by simp [TrackPlayer.emitEvent],
        by simp [TrackPlayer.emitEvent], by simp [TrackPlayer.emitEvent, happ], ?_⟩
      show trackChangedLog ((TrackPlayer.loadTrack _ _ _).events ++ [_]) = _
      rw [TrackPlayer.trackChangedLog_append, TrackPlayer.loadTrack_tclog]
      simp [trackChangedLog]
    | some j =>
      simp only [TrackPlayer.add, hts, if_false]
      by_cases hin : 0 ≤ j ∧ j ≤ (p.queue.length : Int)
      · rw [if_pos hin]
        rw [if_neg (by omega : ¬ j ≤ p.currentTrackIndex)]
        rw [if_pos (by rw [hsplice]; exact ⟨hidx, hlen⟩ :
          ({ p with queue := spliceIn p.queue j ts } : Player).currentTrackIndex = -1 ∧
            0 < ({ p with queue := spliceIn p.queue j ts } : Player).queue.length)]
        refine ⟨by simp [TrackPlayer.emitEvent], by simp [TrackPlayer.emitEvent],
          by simp [TrackPlayer.emitEvent], by simp [TrackPlayer.emitEvent, hsplice], ?_⟩
        show trackChangedLog ((TrackPlayer.loadTrack _ _ _).events ++ [_]) = _
        rw [TrackPlayer.trackChangedLog_append, TrackPlayer.loadTrack_tclog]
        simp [trackChangedLog]
      · rw [if_neg hin]
        rw [if_pos (by rw [happ]; exact ⟨hidx, hlen⟩ :
          ({ p with queue := p.queue ++ ts } : Player).currentTrackIndex = -1 ∧
            0 < ({ p with queue := p.queue ++ ts } : Player).queue.length)]
        refine ⟨by simp [TrackPlayer.emitEvent], by simp [TrackPlayer.emitEvent],
          by simp [TrackPlayer.emitEvent], by simp [TrackPlayer.emitEvent, happ], ?_⟩
        show trackChangedLog ((TrackPlayer.loadTrack _ _ _).events ++ [_]) = _
        rw [TrackPlayer.trackChangedLog_append, TrackPlayer.loadTrack_tclog]
        simp [trackChangedLog]

/-- Witness for C2 on a fresh empty player adding `[A]` at requested
index `3` (out of range, appended; first track becomes active). -/
theorem c2_add_amended_witness :
    ([trackA] ≠ ([] : List Track)) ∧
      (TrackPlayer.add setupPlayer [trackA] (some 3)).queue = setupPlayer.queue ++ [trackA] ∧
      (setupPlayer.queue = [] ∧ setupPlayer.currentTrackIndex = -1 →
        (TrackPlayer.add setupPlayer [trackA] (some 3)).currentTrackIndex = 0 ∧
        (TrackPlayer.add setupPlayer [trackA] (some 3)).state = State.buffering ∧
        (TrackPlayer.add setupPlayer [trackA] (some 3)).playWhenReady
            = setupPlayer.playWhenReady ∧
        (TrackPlayer.add setupPlayer [trackA] (some 3)).elem.src
            = (([trackA]).headD { url := "" }).url ∧
        trackChangedLog (TrackPlayer.add setupPlayer [trackA] (some 3)).events =
          trackChangedLog setupPlayer.events ++ [(Option.none, 0)]) :=
  ⟨by decide,
    (c2_add_amended setupPlayer [trackA] 3 (some 3) (by decide)).2.1 (by decide),
    (c2_add_amended setupPlayer [trackA] 3 (some 3) (by decide)).2.2.2.2⟩

/-- **C5.** With `RepeatMode.Queue` and the active index at the last
queue position, `skipToNext` succeeds: it wraps the active index to `0`,
reloads the first track (the element's source becomes that track's url,
state `Buffering`, play intent raised by the trailing `play()`), leaves
the queue unchanged, and emits one `PlaybackTrackChanged` event whose
`prevTrack` is the former last index.  For a single-track queue
(`len = 1`, witness below) this restarts that same track rather than
failing. -/
theorem c5_skipToNext_queue_wraps (p : Player)
    (hcapN : Capability.skipToNext ∈ p.capabilities)
    (hcapP : Capability.play ∈ p.capabilities)
    (hmode : p.repeatMode = RepeatMode.queue)
    (hlen : 0 < p.queue.length)
    (hidx : p.currentTrackIndex = (p.queue.length : Int) - 1) :
    (TrackPlayer.skipToNext p).2 = Option.none ∧
      (TrackPlayer.skipToNext p).1.currentTrackIndex = 0 ∧
      (TrackPlayer.skipToNext p).1.queue = p.queue ∧
      (TrackPlayer.skipToNext p).1.elem.src = (p.queue.headD { url := "" }).url ∧
      (TrackPlayer.skipToNext p).1.state = State.buffering ∧
      (TrackPlayer.skipToNext p).1.playWhenReady = true ∧
      trackChangedLog (TrackPlayer.skipToNext p).1.events =
        trackChangedLog p.events ++ [(some ((p.queue.length : Int) - 1), 0)] := by
  have h1 : TrackPlayer.hasCapability p Capability.skipToNext = true :=
    TrackPlayer.hasCapability_eq_true hcapN
  have h2 : ¬ p.currentTrackIndex < 0 := by omega
  have h3 : ¬ p.repeatMode = RepeatMode.track := by rw [hmode]; decide
  have h4 : (p.queue.length : Int) - 1 ≤ p.currentTrackIndex := by omega
  have h5 : p.repeatMode = RepeatMode.queue ∧ 0 < p.queue.length := ⟨hmode, hlen⟩
  unfold TrackPlayer.skipToNext
  rw [if_neg (by simp [h1]), if_neg h2, if_neg h3, if_pos h4, if_pos h5]
  simp [TrackPlayer.play_snd_after_load, TrackPlayer.play_idx_after_load,
    TrackPlayer.play_queue_after_load, TrackPlayer.play_src_after_load,
    TrackPlayer.play_state_after_load, TrackPlayer.play_pwr_after_load,
    TrackPlayer.play_tclog_after_load, hcapP, TrackPlayer.trackChangedLog_append]

/-- Witness for C5: `skipToNext` on the single-track queue restarts the
only track instead of failing. -/
theorem c5_skipToNext_queue_wraps_witness :
    (Capability.skipToNext ∈ c5Player.capabilities) ∧
      (Capability.play ∈ c5Player.capabilities) ∧
      c5Player.repeatMode = RepeatMode.queue ∧
      0 < c5Player.queue.length ∧
      c5Player.currentTrackIndex = (c5Player.queue.length : Int) - 1 ∧
      (TrackPlayer.skipToNext c5Player).2 = Option.none ∧
      (TrackPlayer.skipToNext c5Player).1.currentTrackIndex = 0 ∧
      (TrackPlayer.skipToNext c5Player).1.elem.src
        = (c5Player.queue.headD { url := "" }).url :=
  ⟨by decide, by decide, by decide, by decide, by decide,
    (c5_skipToNext_queue_wraps c5Player (by decide) (by decide) (by decide) (by decide)
      (by decide)).1,
    (c5_skipToNext_queue_wraps c5Player (by decide) (by decide) (by decide) (by decide)
      (by decide)).2.1,
    (c5_skipToNext_queue_wraps c5Player (by decide) (by decide) (by decide) (by decide)
      (by decide)).2.2.2.1⟩

/-- **C1 (violation).** After the `c1ops` sequence the queue still holds
one track but `currentTrackIndex` is `-2`: each of the three removals at
index `0` compares against the captured pre-loop index `1` and
decrements the live index (`1 → 0 → -1 → -2`), because `remove` never
re-reads the live index in its comparisons and never clamps.
`getActiveTrackIndex()` then returns `-2`, contradicting both the
invariant and the method's own documented contract ("Index of the
active track, or -1 if none"). -/
theorem c1_active_index_invariant_violated :
    ¬ IndexInvariant (run setupPlayer c1ops) ∧
      (run setupPlayer c1ops).currentTrackIndex = -2 ∧
      (run setupPlayer c1ops).queue.length = 1 ∧
      TrackPlayer.getActiveTrackIndex (run setupPlayer c1ops) = -2 := by
  decide

/-- **C7 (counterexample).** `destroy` assigns `state = State.None`
directly (TrackPlayer.ts line 1787) instead of going through
`updateState`: on the freshly set-up player (state `Ready`) the state
field changes, yet no `PlaybackState` event is emitted — so the state
field is not mutated only through the state-transition function. -/
theorem c7_destroy_bypasses_updateState :
    setupPlayer.state = State.ready ∧
      (TrackPlayer.destroy setupPlayer).state = State.none ∧
      ¬ (TrackPlayer.destroy setupPlayer).state = setupPlayer.state ∧
      stateLog (TrackPlayer.destroy setupPlayer).events = stateLog setupPlayer.events := by
  decide

theorem spliceOut_length (q : List Track) (i : Int) (h0 : 0 ≤ i)
    (h1 : i < (q.length : Int)) : (spliceOut q i).length = q.length - 1 := by
  unfold spliceOut
  rw [List.length_append, List.length_take, List.length_drop]
  omega

/-- **C6 (counterexample).** `remove([0, 1])` on queue `[A, B]` with
active index `1` empties the queue and sets the active index to `-1`,
but leaves the state `Buffering`, not `Stopped`: the indices are
processed in descending order, so when the active index `1` is removed
the queue still holds `[A]` and the reload branch runs (`Buffering`);
the `Stopped` branch never runs because the queue only becomes empty at
the later removal of index `0`, which merely decrements the index. -/
theorem c6_remove_all_leaves_buffering :
    (run setupPlayer c6ops).queue = [] ∧
      (run setupPlayer c6ops).currentTrackIndex = -1 ∧
      (run setupPlayer c6ops).state = State.buffering ∧
      ¬ (run setupPlayer c6ops).state = State.stopped := by
  decide

/-- **C6 (amended).** For a `remove` call: at the step that removes the
active index itself, if the queue is still non-empty the track then at
the clamped position `min(activeIndex, newLength − 1)` is reloaded
preserving the prior play/pause intent and the state becomes
`Buffering`; if the queue became empty at that step, the active index
becomes `-1` and the state becomes `Stopped`.  Every removed valid index
below the original active index decrements the active index by one.
(The original claim's whole-call conclusion fails when later removals in
the same call empty the queue after the active index was already
removed: see the counterexample.)  Stated here for a single-index
`remove([i])` with `i` the active index — whose step is exactly the loop
body `removeStep` — plus the decrement rule for the loop body at any
lower index. -/
theorem c6_remove_active_amended (p : Player) (i : Int)
    (hval : 0 ≤ i ∧ i < (p.queue.length : Int)) (hact : i = p.currentTrackIndex) :
    (2 ≤ p.queue.length →
      (TrackPlayer.remove p [i]).state = State.buffering ∧
      (TrackPlayer.remove p [i]).queue = spliceOut p.queue i ∧
      (TrackPlayer.remove p [i]).currentTrackIndex = min i ((p.queue.length : Int) - 2) ∧
      (TrackPlayer.remove p [i]).playWhenReady
        = (p.playWhenReady || (p.state == State.playing)) ∧
      (TrackPlayer.remove p [i]).elem.src =
        ((getIdx (TrackPlayer.remove p [i]).queue
          (TrackPlayer.remove p [i]).currentTrackIndex).getD { url := "" }).url) ∧
    (p.queue.length = 1 →
      (TrackPlayer.remove p [i]).currentTrackIndex = -1 ∧
      (TrackPlayer.remove p [i]).state = State.stopped ∧
      (TrackPlayer.remove p [i]).queue = []) ∧
    (∀ j : Int, 0 ≤ j → j < (p.queue.length : Int) → j < p.currentTrackIndex →
      (TrackPlayer.removeStep p.currentTrackIndex (p.state == State.playing) p j).currentTrackIndex = p.currentTrackIndex - 1 ∧
      (TrackPlayer.removeStep p.currentTrackIndex (p.state == State.playing) p j).queue
        = spliceOut p.queue j ∧
      (TrackPlayer.removeStep p.currentTrackIndex (p.state == State.playing) p j).state
        = p.state) := by
  have hr : TrackPlayer.remove p [i]
      = TrackPlayer.removeStep p.currentTrackIndex (p.state == State.playing) p i := by
    simp [TrackPlayer.remove, sortDesc, insertDesc]
  refine ⟨?_, ?_, ?_⟩
  · intro h2
    rw [hr]
    unfold TrackPlayer.removeStep
    rw [if_pos hval, if_neg (by omega), if_pos hact]
    have hlen : (spliceOut p.queue i).length = p.queue.length - 1 :=
      spliceOut_length p.queue i hval.1 hval.2
    rw [if_pos (by simpa [hlen] using (by omega : 0 < p.queue.length - 1))]
    have hmin : min p.currentTrackIndex
        ((({ p with queue := spliceOut p.queue i } : Player).queue.length : Int) - 1)
        = min i ((p.queue.length : Int) - 2) := by
      show min p.currentTrackIndex (((spliceOut p.queue i).length : Int) - 1) = _
      rw [hlen, ← hact]
      congr 1
      omega
    refine ⟨by simp, by simp, by simp [hmin], ?_, by simp [hmin]⟩
    rw [TrackPlayer.loadTrack_pwr]
    show (if (p.state == State.playing) = true
      then p.playWhenReady || p.state == State.playing else p.playWhenReady) = _
    cases hb : (p.state == State.playing) <;> simp [hb]
  · intro h1
    rw [hr]
    unfold TrackPlayer.removeStep
    rw [if_pos hval, if_neg (by omega), if_pos hact]
    have hlen : (spliceOut p.queue i).length = p.queue.length - 1 :=
      spliceOut_length p.queue i hval.1 hval.2
    have hnil : spliceOut p.queue i = [] := by
      have : (spliceOut p.queue i).length = 0 := by omega
      exact List.length_eq_zero.mp this
    rw [if_neg (by simp [hlen, h1])]
    refine ⟨by simp, by simp, by simp [hnil]⟩
  · intro j hj0 hjlen hjlt
    unfold TrackPlayer.removeStep
    rw [if_pos ⟨hj0, hjlen⟩, if_pos hjlt]
    exact ⟨rfl, rfl, rfl⟩

/-- Witness for C6 on queue `[A, B]` with active index `0`, removing the
single active index `0`. -/
theorem c6_remove_active_amended_witness :
    (0 ≤ (0 : Int) ∧ (0 : Int) < (c2Player.queue.length : Int)) ∧
      ((0 : Int) = c2Player.currentTrackIndex) ∧
      2 ≤ c2Player.queue.length ∧
      (TrackPlayer.remove c2Player [0]).state = State.buffering ∧
      (TrackPlayer.remove c2Player [0]).queue = spliceOut c2Player.queue 0 ∧
      (TrackPlayer.remove c2Player [0]).currentTrackIndex
        = min 0 ((c2Player.queue.length : Int) - 2) :=
  ⟨by decide, by decide, by decide,
    ((c6_remove_active_amended c2Player 0 (by decide) (by decide)).1 (by decide)).1,
    ((c6_remove_active_amended c2Player 0 (by decide) (by decide)).1 (by decide)).2.1,
    ((c6_remove_active_amended c2Player 0 (by decide) (by decide)).1 (by decide)).2.2.1⟩

theorem stok_congr {p q : Player} (h : StOk p) (he : q.events = p.events)
    (hs : q.state = p.state) : StOk q := by
  unfold StOk at h ⊢
  rw [he, hs]
  exact h

theorem updateState_stok {p : Player} (s : State) (h : StOk p) :
    StOk (TrackPlayer.updateState p s) := by
  unfold TrackPlayer.updateState
  split
  · next hne =>
    unfold TrackPlayer.emitEvent
    constructor
    · show List.Chain' _ (stateLog (p.events ++ [EventData.playbackState s]))
      rw [TrackPlayer.stateLog_append, TrackPlayer.stateLog_single_state,
        List.chain'_append]
      refine ⟨h.1, List.chain'_singleton _, ?_⟩
      intro x hx y hy
      simp only [List.head?_cons, Option.mem_def, Option.some.injEq] at hy
      subst hy
      have hx2 : p.state = x := by
        rw [h.2] at hx
        simpa using hx
      rw [← hx2]
      exact hne
    · show (stateLog (p.events ++ [EventData.playbackState s])).getLast? = some s
      rw [TrackPlayer.stateLog_append, TrackPlayer.stateLog_single_state]
      exact List.getLast?_concat _
  · exact h

theorem emit_nonstate_stok {p : Player} {d : EventData} (hd : stateLog [d] = [])
    (h : StOk p) : StOk (TrackPlayer.emitEvent p d) := by
  unfold TrackPlayer.emitEvent
  constructor
  · show List.Chain' _ (stateLog (p.events ++ [d]))
    rw [TrackPlayer.stateLog_append, hd, List.append_nil]
    exact h.1
  · show (stateLog (p.events ++ [d])).getLast? = some p.state
    rw [TrackPlayer.stateLog_append, hd, List.append_nil]
    exact h.2

theorem onPlayEvent_stok {p : Player} (h : StOk p) : StOk (TrackPlayer.onPlayEvent p) := by
  unfold TrackPlayer.onPlayEvent
  split
  · exact h
  · exact updateState_stok _ h

theorem onPauseEvent_stok {p : Player} (h : StOk p) : StOk (TrackPlayer.onPauseEvent p) := by
  unfold TrackPlayer.onPauseEvent
  split
  · exact h
  · exact updateState_stok _ h

theorem elemPlay_stok {p : Player} (h : StOk p) : StOk (TrackPlayer.elemPlay p) := by
  unfold TrackPlayer.elemPlay
  split
  · exact onPlayEvent_stok (stok_congr h rfl rfl)
  · exact h

theorem elemPause_stok {p : Player} (h : StOk p) : StOk (TrackPlayer.elemPause p) := by
  unfold TrackPlayer.elemPause
  split
  · exact h
  · exact onPauseEvent_stok (stok_congr h rfl rfl)

theorem loadTrack_stok {p : Player} (t : Track) (b : Bool) (h : StOk p) :
    StOk (TrackPlayer.loadTrack p t b) := by
  unfold TrackPlayer.loadTrack
  apply updateState_stok
  have hep : StOk (TrackPlayer.elemPause { p with isChangingTrack := true }) :=
    elemPause_stok (stok_congr h rfl rfl)
  split
  · exact stok_congr hep rfl rfl
  · exact stok_congr hep rfl rfl

theorem emitProgress_stok {p : Player} (h : StOk p) : StOk (TrackPlayer.emitProgress p) := by
  unfold TrackPlayer.emitProgress
  exact emit_nonstate_stok rfl h

theorem add_stok {p : Player} (ts : List Track) (ib : Option Int) (h : StOk p) :
    StOk (TrackPlayer.add p ts ib) := by
  unfold TrackPlayer.add
  split
  · exact h
  · cases ib with
    | none =>
      dsimp only
      split
      · exact emit_nonstate_stok rfl (loadTrack_stok _ _ (stok_congr h rfl rfl))
      · exact stok_congr h rfl rfl
    | some i =>
      dsimp only
      split
      · split
        · split
          · exact emit_nonstate_stok rfl (loadTrack_stok _ _ (stok_congr h rfl rfl))
          · exact stok_congr h rfl rfl
        · split
          · exact emit_nonstate_stok rfl (loadTrack_stok _ _ (stok_congr h rfl rfl))
          · exact stok_congr h rfl rfl
      · split
        · exact emit_nonstate_stok rfl (loadTrack_stok _ _ (stok_congr h rfl rfl))
        · exact stok_congr h rfl rfl

theorem move_stok {p : Player} (i j : Int) (h : StOk p) :
    StOk (TrackPlayer.move p i j).1 := by
  unfold TrackPlayer.move
  split
  · exact h
  · split
    · exact h
    · split
      · exact h
      · exact stok_congr h rfl rfl

theorem removeStep_stok {a : Int} {w : Bool} {p : Player} (j : Int) (h : StOk p) :
    StOk (TrackPlayer.removeStep a w p j) := by
  unfold TrackPlayer.removeStep
  split
  · dsimp only
    split
    · exact stok_congr h rfl rfl
    · split
      · split
        · exact loadTrack_stok _ _ (stok_congr h rfl rfl)
        · exact updateState_stok _ (stok_congr h rfl rfl)
      · exact stok_congr h rfl rfl
  · exact h

theorem foldl_removeStep_stok (a : Int) (w : Bool) (l : List Int) :
    ∀ p : Player, StOk p → StOk (l.foldl (TrackPlayer.removeStep a w) p) := by
  induction l with
  | nil => intro p h; exact h
  | cons x xs ih =>
    intro p h
    exact ih _ (removeStep_stok x h)

theorem remove_stok {p : Player} (l : List Int) (h : StOk p) :
    StOk (TrackPlayer.remove p l) := by
  unfold TrackPlayer.remove
  split
  · exact h
  · exact foldl_removeStep_stok _ _ _ _ h

theorem finishPlay_stok {p : Player} (h : StOk p) : StOk (TrackPlayer.finishPlay p).1 :=
  elemPlay_stok (stok_congr h rfl rfl)

theorem play_stok {p : Player} (h : StOk p) : StOk (TrackPlayer.play p).1 := by
  unfold TrackPlayer.play
  split
  · exact h
  · split
    · apply finishPlay_stok
      refine emit_nonstate_stok ?_ ?_
      · rfl
      · have hload : StOk (TrackPlayer.loadTrack
            ({ p with currentTrackIndex := 0 } : Player)
            (({ p with currentTrackIndex := 0 } : Player).queue.headD { url := "" })
            false) := loadTrack_stok _ _ (stok_congr h rfl rfl)
        exact stok_congr hload rfl rfl
    · split
      · apply finishPlay_stok
        apply stok_congr _ rfl rfl
        split
        · exact stok_congr (loadTrack_stok _ _ (stok_congr h rfl rfl)) rfl rfl
        · exact loadTrack_stok _ _ (stok_congr h rfl rfl)
      · split
        · exact h
        · exact finishPlay_stok h

theorem skip_stok {p : Player} (i : Int) (h : StOk p) : StOk (TrackPlayer.skip p i).1 := by
  unfold TrackPlayer.skip
  split
  · exact h
  · split
    · exact h
    · apply play_stok
      refine emit_nonstate_stok ?_ ?_
      · rfl
      · exact loadTrack_stok _ _ (stok_congr h rfl rfl)

theorem skipToNext_stok {p : Player} (h : StOk p) : StOk (TrackPlayer.skipToNext p).1 := by
  unfold TrackPlayer.skipToNext
  split
  · exact h
  · split
    · exact h
    · split
      · exact play_stok (loadTrack_stok _ _ h)
      · split
        · split
          · apply play_stok
            refine emit_nonstate_stok ?_ ?_
            · rfl
            · exact loadTrack_stok _ _ (stok_congr h rfl rfl)
          · exact h
        · apply play_stok
          refine emit_nonstate_stok ?_ ?_
          · rfl
          · exact loadTrack_stok _ _ (stok_congr h rfl rfl)

theorem skipToPrevious_stok {p : Player} (h : StOk p) :
    StOk (TrackPlayer.skipToPrevious p).1 := by
  unfold TrackPlayer.skipToPrevious
  split
  · exact h
  · split
    · exact h
    · split
      · exact play_stok (loadTrack_stok _ _ h)
      · split
        · split
          · apply play_stok
            refine emit_nonstate_stok ?_ ?_
            · rfl
            · exact loadTrack_stok _ _ (stok_congr h rfl rfl)
          · exact h
        · apply play_stok
          refine emit_nonstate_stok ?_ ?_
          · rfl
          · exact loadTrack_stok _ _ (stok_congr h rfl rfl)

theorem pause_stok {p : Player} (h : StOk p) : StOk (TrackPlayer.pause p).1 := by
  unfold TrackPlayer.pause
  split
  · exact h
  · split
    · exact h
    · exact elemPause_stok (stok_congr h rfl rfl)

theorem stop_stok {p : Player} (h : StOk p) : StOk (TrackPlayer.stop p).1 := by
  unfold TrackPlayer.stop
  split
  · exact h
  · split
    · exact h
    · have hep : StOk (TrackPlayer.elemPause ({ p with playWhenReady := false } : Player)) :=
        elemPause_stok (stok_congr h rfl rfl)
      exact updateState_stok _ (stok_congr hep rfl rfl)

theorem seekTo_stok {p : Player} (pos : ℚ) (h : StOk p) : StOk (TrackPlayer.seekTo p pos).1 := by
  unfold TrackPlayer.seekTo
  split
  · exact h
  · split
    · exact h
    · exact emitProgress_stok (stok_congr h rfl rfl)

theorem seekBy_stok {p : Player} (off : ℚ) (h : StOk p) : StOk (TrackPlayer.seekBy p off).1 := by
  unfold TrackPlayer.seekBy
  split
  · exact h
  · split
    · exact h
    · exact emitProgress_stok (stok_congr h rfl rfl)

theorem reset_stok {p : Player} (h : StOk p) : StOk (TrackPlayer.reset p) := by
  unfold TrackPlayer.reset
  exact updateState_stok _ (stok_congr (stop_stok h) rfl rfl)

theorem setRepeatMode_stok {p : Player} (m : RepeatMode) (h : StOk p) :
    StOk (TrackPlayer.setRepeatMode p m) :=
  stok_congr h rfl rfl

theorem applyOp_stok {p : Player} (o : Op) (h : StOk p) : StOk (applyOp p o) := by
  cases o with
  | add ts ib => exact add_stok ts ib h
  | remove l => exact remove_stok l h
  | move i j => exact move_stok i j h
  | skip i => exact skip_stok i h
  | skipToNext => exact skipToNext_stok h
  | skipToPrevious => exact skipToPrevious_stok h
  | play => exact play_stok h
  | pause => exact pause_stok h
  | stop => exact stop_stok h
  | seekTo pos => exact seekTo_stok pos h
  | seekBy off => exact seekBy_stok off h
  | reset => exact reset_stok h
  | setRepeatMode m => exact setRepeatMode_stok m h

theorem run_stok (ops : List Op) : ∀ p : Player, StOk p → StOk (run p ops) := by
  induction ops with
  | nil => intro p h; exact h
  | cons o os ih =>
    intro p h
    exact ih _ (applyOp_stok o h)

theorem stok_setup : StOk setupPlayer := by
  constructor
  · show List.Chain' _ (stateLog setupPlayer.events)
    have hl : stateLog setupPlayer.events = [State.ready] := rfl
    rw [hl]
    exact List.chain'_singleton _
  · rfl

/-- **C7 (amended).** Outside `destroy` (which resets the state field to
`None` directly, without emitting — see the counterexample), the state
field is mutated only through `updateState`, which is a no-op when the
new value equals the current one; consequently, over every sequence of
public operations on a set-up player within one lifetime, no two
consecutive `PlaybackState` events carry the same state value. -/
theorem c7_no_consecutive_duplicate_state_events (ops : List Op) :
    List.Chain' (fun a b => a ≠ b) (stateLog (run setupPlayer ops).events) :=
  (run_stok ops setupPlayer stok_setup).1

/-- Witness for C3: `seekBy(2)` on `seekPlayer` (a seek past the end). -/
theorem c3_seekBy_clamped_witness :
    (Capability.seekBy ∈ seekPlayer.capabilities) ∧
      (¬ seekPlayer.currentTrackIndex = -1) ∧
      (0 < seekPlayer.elem.duration) ∧
      (TrackPlayer.seekBy seekPlayer 2).2 = Option.none ∧
      (TrackPlayer.seekBy seekPlayer 2).1.elem.currentTime < seekPlayer.elem.duration ∧
      0 ≤ (TrackPlayer.seekBy seekPlayer 2).1.elem.currentTime :=
  ⟨by decide, by decide, zero_lt_one,
    (c3_seekBy_clamped seekPlayer 2 (by decide) (by decide) zero_lt_one).1,
    (c3_seekBy_clamped seekPlayer 2 (by decide) (by decide) zero_lt_one).2.2.2.1,
    (c3_seekBy_clamped seekPlayer 2 (by decide) (by decide) zero_lt_one).2.2.1⟩

end RTP
